import Mathlib

/- Verification of the resolution-and-transformation core of capp_s
(src/src/pulumi/mod.rs).  The Rust module is shallowly embedded below:
strings are Lean strings (structures over lists of characters), the two
regular expressions of the source are embedded as explicit leftmost-first
backtracking matchers over character lists (the match semantics of the Rust
regex crate), and Rust panics (unwrap / expect on absent values or on failed
regex captures) are embedded as RunResult.panicked. -/

set_option autoImplicit false

/-- Result of a possibly panicking Rust computation: RunResult.ok is a normal
return, RunResult.panicked models a Rust panic (a failed unwrap or expect).
For extract_and_parse_resource_name it models the Rust Result, whose error
branch is never taken. -/
inductive RunResult (α : Type) where
  | ok : α → RunResult α
  | panicked : RunResult α
deriving DecidableEq

/-- Decidable prefix test on character lists (used by the substring test and
by the placeholder replacement below). -/
def isPre : List Char → List Char → Bool
  | [], _ => true
  | _ :: _, [] => false
  | a :: as, b :: bs => a == b && isPre as bs

/-- Substring containment, as Rust str::contains with a literal pattern:
listContains pat s is true exactly when pat occurs inside s. -/
def listContains (pat : List Char) : List Char → Bool
  | [] => pat.isEmpty
  | c :: t => isPre pat (c :: t) || listContains pat t

/-- All (prefix, suffix) splits of a list, in order of increasing prefix
length. -/
def splits : List Char → List (List Char × List Char)
  | [] => [([], [])]
  | c :: cs => ([], c :: cs) :: (splits cs).map (fun p => (c :: p.1, p.2))

/-- Anchored match, at the head of l, of the source regex used by
extract_and_parse_resource_name: a dollar and an opening brace, a greedy
one-or-more group, a literal dot, a second greedy one-or-more group and a
closing brace.  Greedy groups try longer captures first and the dot of the
regex matches any character except a newline, as in the Rust regex crate;
the returned pair holds the two captured groups. -/
def matchAt (l : List Char) : Option (List Char × List Char) :=
  match l with
  | c1 :: c2 :: rest =>
    if c1 == '$' && c2 == '{' then
      (splits rest).reverse.findSome? (fun p =>
        if !p.1.isEmpty && p.1.all (fun c => c != '\n') then
          match p.2 with
          | d :: r2 =>
            if d == '.' then
              (splits r2).reverse.findSome? (fun q =>
                if !q.1.isEmpty && q.1.all (fun c => c != '\n') then
                  match q.2 with
                  | e :: _ => if e == '}' then some (p.1, q.1) else none
                  | [] => none
                else none)
            else none
          | [] => none
        else none)
    else none
  | _ => none

/-- Unanchored captures for the resource-name regex: the match at the
leftmost starting position wins, as with Regex::captures. -/
def findCaptures : List Char → Option (List Char × List Char)
  | [] => none
  | c :: cs =>
    match matchAt (c :: cs) with
    | some r => some r
    | none => findCaptures cs

/-- Anchored match, at the head of l, of the build-context regex of
check_and_match_reference: group one is a dollar, an opening brace, a greedy
one-or-more run and a closing brace; then a literal slash; then group three,
a final greedy one-or-more run.  The returned pair holds the full text of
group one and the text of group three. -/
def ctxMatchAt (l : List Char) : Option (List Char × List Char) :=
  match l with
  | c1 :: c2 :: rest =>
    if c1 == '$' && c2 == '{' then
      (splits rest).reverse.findSome? (fun p =>
        if !p.1.isEmpty && p.1.all (fun c => c != '\n') then
          match p.2 with
          | d :: e :: r2 =>
            if d == '}' && e == '/' then
              if !(r2.takeWhile (fun c => c != '\n')).isEmpty then
                some ('$' :: '{' :: (p.1 ++ ['}']), r2.takeWhile (fun c => c != '\n'))
              else none
            else none
          | _ => none
        else none)
    else none
  | _ => none

/-- Unanchored captures for the build-context regex, leftmost start first. -/
def findCtxCaptures : List Char → Option (List Char × List Char)
  | [] => none
  | c :: cs =>
    match ctxMatchAt (c :: cs) with
    | some r => some r
    | none => findCtxCaptures cs

/-- The fixed placeholder token substituted by check_and_match_reference. -/
def cwdPat : List Char := "$\x7bpulumi.cwd\x7d".data

/-- Fuel-driven replacement of every occurrence of cwdPat by a dot, scanning
left to right without overlap, as Rust str::replace; one unit of fuel per
consumed character suffices, see replaceCwd. -/
def replaceCwdFuel : Nat → List Char → List Char
  | 0, l => l
  | _ + 1, [] => []
  | n + 1, c :: cs =>
    if isPre cwdPat (c :: cs) then
      '.' :: replaceCwdFuel n ((c :: cs).drop cwdPat.length)
    else
      c :: replaceCwdFuel n cs

/-- Replacement of every occurrence of the placeholder by a dot, as the
source call context_path.replace. -/
def replaceCwd (l : List Char) : List Char := replaceCwdFuel l.length l

/- Blueprint and output data shapes.  The Rust structures live in
crate::serializer, whose file is not part of src/; every field below is
reconstructed from its concrete use inside src/src/pulumi/mod.rs (field
names, optionality and element types are all forced by that use) and agrees
with the data model of the specification. -/

/-- Blueprint of one container: a raw image expression and a name. -/
structure ContainerBluePrint where
  image : String
  name : String
deriving DecidableEq

/-- Build context carried by an image blueprint. -/
structure BuildContextBluePrint where
  context : String
deriving DecidableEq

/-- Blueprint of one declared image resource of the catalog. -/
structure ContainerImageBluePrint where
  name : String
  build : BuildContextBluePrint
  referenceName : Option String
deriving DecidableEq

/-- Mesh (dapr) configuration blueprint. -/
structure DaprBluePrint where
  enabled : Option Bool
  appPort : Option Nat
  appId : Option String
deriving DecidableEq

/-- Ingress configuration blueprint. -/
structure IngressBluePrint where
  external : Option Bool
  targetPort : Option Nat
deriving DecidableEq

/-- Template of an application blueprint: its containers. -/
structure TemplateBluePrint where
  containers : Option (List ContainerBluePrint)
deriving DecidableEq

/-- Configuration of an application blueprint: optional mesh and ingress. -/
structure ConfigurationBluePrint where
  dapr : Option DaprBluePrint
  ingress : Option IngressBluePrint
deriving DecidableEq

/-- Blueprint of one application. -/
structure ContainerAppBluePrint where
  template : TemplateBluePrint
  configuration : ConfigurationBluePrint
deriving DecidableEq

/-- Build context of an output record. -/
structure BuildContext where
  context : String
deriving DecidableEq

/-- One output container record. -/
structure ContainerAppConfiguration where
  image : Option String
  build : Option BuildContext
  name : String
  depends_on : Option (List String)
  networks : Option (List String)
  network_mode : Option String
  environment : Option (List String)
  ports : Option (List String)
  command : Option (List String)
deriving DecidableEq

/-- Classified image reference (source struct Resource). -/
structure Resource where
  name : String
  property : Option String
  is_reference : Bool
deriving DecidableEq

/-- Resolved image descriptor (source struct DockerImageForPulumi). -/
structure DockerImageForPulumi where
  name : Option String
  path : Option String
  is_context : Bool
deriving DecidableEq

/-- Per-container assembly input (source struct AppConfiguration). -/
structure AppConfiguration where
  container : ContainerBluePrint
  dapr_configuration : Option DaprBluePrint
  ingress_configuration : Option IngressBluePrint
deriving DecidableEq

/-- Two-character interpolation opener, a dollar followed by an opening
brace: the source computes is_reference as s.contains of this literal. -/
def interpOpen : List Char := ['$', '{']

/-- Source fn extract_and_parse_resource_name: classify a raw image
expression.  The reference flag records whether the string contains the
interpolation opener; the regex captures, when present, provide the resource
name and property.  The Rust function returns Result but both branches are
Ok, so the panicked branch is never produced. -/
def extract_and_parse_resource_name (s : String) : RunResult Resource :=
  match findCaptures s.data with
  | some (g1, g2) => .ok ⟨String.mk g1, some (String.mk g2), listContains interpOpen s.data⟩
  | none => .ok ⟨s, none, listContains interpOpen s.data⟩

/-- The iterator search of check_and_match_reference: images.iter().find with
predicate image.referenceName.clone().unwrap() == name.  The unwrap panics as
soon as an entry without referenceName is inspected. -/
def findImage (name : String) : List ContainerImageBluePrint → RunResult (Option ContainerImageBluePrint)
  | [] => .ok none
  | img :: rest =>
    match img.referenceName with
    | none => .panicked
    | some r => if r = name then .ok (some img) else findImage name rest

/-- Source fn check_and_match_reference: look the classified name up in the
catalog; on a hit, run the build-context regex (the unwrap on its captures
panics when the context does not match) and substitute the placeholder in
group one; on a miss, fail for a reference and fall back to the literal name
otherwise. -/
def check_and_match_reference (images : List ContainerImageBluePrint) (resource : Resource) :
    RunResult (Option DockerImageForPulumi) :=
  match findImage resource.name images with
  | .panicked => .panicked
  | .ok (some val) =>
    match findCtxCaptures val.build.context.data with
    | none => .panicked
    | some (g1, g3) =>
      if g3.isEmpty || g1.isEmpty then .ok none
      else .ok (some ⟨none, some (String.mk (replaceCwd g1 ++ '/' :: g3)), true⟩)
  | .ok none =>
    if resource.is_reference then .ok none
    else .ok (some ⟨some resource.name, none, false⟩)

/-- Source fn build_image_for_serialization: classify then resolve. -/
def build_image_for_serialization (images : List ContainerImageBluePrint) (container : ContainerBluePrint) :
    RunResult (Option DockerImageForPulumi) :=
  match extract_and_parse_resource_name container.image with
  | .ok resource => check_and_match_reference images resource
  | .panicked => .panicked

/-- Source fn build_ports_mapping_for_serialization: compute the mesh app
port and the published port mappings of one container. -/
def build_ports_mapping_for_serialization (configuration : AppConfiguration) :
    Option Nat × Option (List String) :=
  let dapr_configuration := configuration.dapr_configuration
  let ingress_configuration := configuration.ingress_configuration
  let container_name := configuration.container.name
  let has_dapr_enabled : Bool :=
    match dapr_configuration with
    | some v => v.enabled == some true
    | none => false
  let has_ingress_exposed : Bool :=
    match ingress_configuration with
    | some v => v.external == some true
    | none => false
  let dapr_app_port : Option Nat :=
    match dapr_configuration with
    | some val => val.appPort
    | none => none
  let dapr_app_id : Option String :=
    match dapr_configuration with
    | some val => val.appId
    | none => none
  let ingress_app_port : Option Nat :=
    match ingress_configuration with
    | some val => val.targetPort
    | none => none
  let ports1 : List String :=
    if has_dapr_enabled && has_ingress_exposed then
      if container_name == dapr_app_id.getD "" then
        [toString (ingress_app_port.getD 0) ++ ":" ++ toString (dapr_app_port.getD 0)]
      else []
    else []
  let ports2 : List String :=
    if !has_dapr_enabled && has_ingress_exposed then
      [toString (ingress_app_port.getD 0) ++ ":" ++ toString (ingress_app_port.getD 0)]
    else []
  let ports := ports1 ++ ports2
  (dapr_app_port, if !ports.isEmpty then some ports else none)

/-- Source fn parse_app_configuration: resolve the image (dropping the
container on a miss), compute the ports, then emit the primary record alone
or the primary record followed by the dapr sidecar record.  The source
unwraps enabled when a dapr configuration is present, and unwraps the image
path inside the build-context closure; both unwraps are panics here. -/
def parse_app_configuration (images : List ContainerImageBluePrint) (configuration : AppConfiguration) :
    RunResult (Option (List ContainerAppConfiguration)) :=
  match build_image_for_serialization images configuration.container with
  | .panicked => .panicked
  | .ok none => .ok none
  | .ok (some image) =>
    let name := configuration.container.name
    let pm := build_ports_mapping_for_serialization configuration
    match (match configuration.dapr_configuration with
           | some v => v.enabled
           | none => some false) with
    | none => .panicked
    | some has_dapr_enabled =>
      match (if image.is_context then
               match image.path with
               | some p => some (some (BuildContext.mk p))
               | none => none
             else some none) with
      | none => .panicked
      | some bld =>
        if has_dapr_enabled then
          .ok (some
            [⟨image.name, bld, name, some ["placement"], some ["dapr-network"], none, none, pm.2, none⟩,
             ⟨some "daprio/daprd:edge", none, name ++ "_dapr", some [name], none,
              some ("service:" ++ name), none, none,
              some ["./daprd", "-app-id", name, "-app-port", toString (pm.1.getD 0),
                    "-placement-host-address", "placement:50006", "air"]⟩])
        else
          .ok (some [⟨image.name, bld, name, none, none, none, none, pm.2, none⟩])

/-- Per-application loop body of build_configuration: the flat_map over the
containers of one application, flattening dropped containers away and
stopping at the first panic. -/
def parse_containers (images : List ContainerImageBluePrint) (dapr : Option DaprBluePrint)
    (ingress : Option IngressBluePrint) : List ContainerBluePrint → RunResult (List ContainerAppConfiguration)
  | [] => .ok []
  | c :: rest =>
    match parse_app_configuration images ⟨c, dapr, ingress⟩ with
    | .panicked => .panicked
    | .ok r =>
      match parse_containers images dapr ingress rest with
      | .panicked => .panicked
      | .ok rs => .ok (r.getD [] ++ rs)

/-- Source fn build_configuration: walk every application in order, unwrap
its container list (a panic when absent), assemble every container and
append the results. -/
def build_configuration (apps : List ContainerAppBluePrint) (images : List ContainerImageBluePrint) :
    RunResult (List ContainerAppConfiguration) :=
  match apps with
  | [] => .ok []
  | app :: rest =>
    match app.template.containers with
    | none => .panicked
    | some cs =>
      match parse_containers images app.configuration.dapr app.configuration.ingress cs with
      | .panicked => .panicked
      | .ok recs =>
        match build_configuration rest images with
        | .panicked => .panicked
        | .ok restRecs => .ok (recs ++ restRecs)

/-- Spec-side definition for the port-mapping table, written from the words
of the specification alone (section 4.3): meshEnabled and ingressExternal
compare the optional flags with true, the ports default to zero in
formatting, the app id defaults to the empty string, rule one emits the
ingress-to-mesh mapping, rule three the ingress-to-ingress mapping, every
other case emits nothing, and the mesh port is returned unchanged. -/
def computePortsSpec (mesh : Option DaprBluePrint) (ingress : Option IngressBluePrint)
    (containerName : String) : Option Nat × Option (List String) :=
  let meshEnabled : Bool := (mesh.bind (fun m => m.enabled)).getD false
  let ingressExternal : Bool := (ingress.bind (fun i => i.external)).getD false
  let meshPort : Option Nat := mesh.bind (fun m => m.appPort)
  let ingressPort : Option Nat := ingress.bind (fun i => i.targetPort)
  let meshAppId : String := (mesh.bind (fun m => m.appId)).getD ""
  let mappings : Option (List String) :=
    if meshEnabled && ingressExternal && (containerName == meshAppId) then
      some [toString (ingressPort.getD 0) ++ ":" ++ toString (meshPort.getD 0)]
    else if !meshEnabled && ingressExternal then
      some [toString (ingressPort.getD 0) ++ ":" ++ toString (ingressPort.getD 0)]
    else none
  (meshPort, mappings)

/- Helper lemmas shared by several claims. -/

/-- A successful findSome? comes from some list element. -/
lemma findSome?_witness {α β : Type} (f : α → Option β) (l : List α) (b : β)
    (h : l.findSome? f = some b) : ∃ a ∈ l, f a = some b := by
  induction l with
  | nil => simp [List.findSome?] at h
  | cons a as ih =>
    rw [List.findSome?] at h
    cases hfa : f a with
    | some b' => rw [hfa] at h; exact ⟨a, by simp, by simpa [hfa] using h⟩
    | none =>
      rw [hfa] at h
      obtain ⟨a', ha', hfa'⟩ := ih h
      exact ⟨a', by simp [ha'], hfa'⟩

/-- matchAt fails on any suffix that does not begin with the opener. -/
lemma matchAt_eq_none_of_not_open (c1 c2 : Char) (rest : List Char)
    (h : isPre interpOpen (c1 :: c2 :: rest) = false) :
    matchAt (c1 :: c2 :: rest) = none := by
  have h' : (c1 == '$' && c2 == '{') = false := by
    by_cases h1 : c1 = '$'
    · by_cases h2 : c2 = '{'
      · subst h1; subst h2; simp [isPre, interpOpen] at h
      · simp [h2]
    · simp [h1]
  unfold matchAt
  simp [h']

/-- The resource-name regex cannot match a string without the opener. -/
lemma findCaptures_eq_none_of_not_open (l : List Char)
    (h : listContains interpOpen l = false) : findCaptures l = none := by
  induction l with
  | nil => rfl
  | cons c cs ih =>
    rw [listContains, Bool.or_eq_false_iff] at h
    have hm : matchAt (c :: cs) = none := by
      cases cs with
      | nil => rfl
      | cons c2 cs' => exact matchAt_eq_none_of_not_open c c2 cs' h.1
    rw [findCaptures, hm]
    exact ih h.2

/-- Classification of a string without the opener keeps it literal. -/
lemma extract_literal_of_not_open (s : String)
    (h : listContains interpOpen s.data = false) :
    extract_and_parse_resource_name s = .ok ⟨s, none, false⟩ := by
  unfold extract_and_parse_resource_name
  rw [findCaptures_eq_none_of_not_open s.data h, h]

/-- The catalog search returns no hit when every entry carries a
referenceName different from the searched name. -/
lemma findImage_eq_ok_none (name : String) (images : List ContainerImageBluePrint)
    (h : ∀ img ∈ images, img.referenceName ≠ none ∧ img.referenceName ≠ some name) :
    findImage name images = .ok none := by
  induction images with
  | nil => rfl
  | cons img rest ih =>
    obtain ⟨h1, h2⟩ := h img (by simp)
    cases hrn : img.referenceName with
    | none => exact absurd hrn h1
    | some rn =>
      rw [findImage, hrn]
      have hne : rn ≠ name := fun he => h2 (by rw [hrn, he])
      simp only [if_neg hne]
      exact ih (fun i hi => h i (by simp [hi]))

/-- A resolved image that is a build context always carries a path. -/
lemma check_ok_some_path (images : List ContainerImageBluePrint) (resource : Resource)
    (img : DockerImageForPulumi)
    (h : check_and_match_reference images resource = .ok (some img)) :
    img.is_context = true → ∃ p, img.path = some p := by
  unfold check_and_match_reference at h
  cases hfi : findImage resource.name images with
  | panicked => simp only [hfi] at h; cases h
  | ok v =>
    simp only [hfi] at h
    cases v with
    | none =>
      by_cases hr : resource.is_reference = true
      · simp [hr] at h
      · simp [hr] at h
        intro hctx
        rw [← h] at hctx
        cases hctx
    | some val =>
      cases hc : findCtxCaptures val.build.context.data with
      | none => simp only [hc] at h; cases h
      | some gg =>
        obtain ⟨g1, g3⟩ := gg
        simp only [hc] at h
        by_cases he : (g3.isEmpty || g1.isEmpty) = true
        · simp [he] at h
        · simp [he] at h
          intro _
          rw [← h]
          exact ⟨_, rfl⟩

/-- Same invariant lifted through build_image_for_serialization. -/
lemma build_image_ok_some_path (images : List ContainerImageBluePrint)
    (container : ContainerBluePrint) (img : DockerImageForPulumi)
    (h : build_image_for_serialization images container = .ok (some img)) :
    img.is_context = true → ∃ p, img.path = some p := by
  unfold build_image_for_serialization at h
  cases he : extract_and_parse_resource_name container.image with
  | ok r => rw [he] at h; exact check_ok_some_path images r img h
  | panicked => rw [he] at h; cases h

/- Claim C1. -/

/-- C1: for every optional mesh configuration, optional ingress
configuration and container, build_ports_mapping_for_serialization agrees
with the four-rule table of the specification (computePortsSpec): the
ingress-to-mesh mapping exactly when the mesh is enabled, the ingress is
external and the container name equals the mesh app id (absent ports
formatted as zero), the ingress-to-ingress mapping exactly when the mesh is
not enabled and the ingress is external, no mapping otherwise, the mesh app
port returned unchanged; and the mapping list is never an empty Some. -/
theorem claim_C1_ports_table (container : ContainerBluePrint) (mesh : Option DaprBluePrint)
    (ingress : Option IngressBluePrint) :
    build_ports_mapping_for_serialization ⟨container, mesh, ingress⟩ =
      computePortsSpec mesh ingress container.name ∧
    (build_ports_mapping_for_serialization ⟨container, mesh, ingress⟩).2 ≠ some [] := by
  have heq : build_ports_mapping_for_serialization ⟨container, mesh, ingress⟩ =
      computePortsSpec mesh ingress container.name := by
    unfold build_ports_mapping_for_serialization computePortsSpec
    rcases mesh with _ | ⟨e, p, a⟩
    · rcases ingress with _ | ⟨x, tp⟩
      · simp
      · rcases x with _ | b
        · simp
        · cases b <;> simp
    · rcases ingress with _ | ⟨x, tp⟩
      · rcases e with _ | b
        · simp
        · cases b <;> simp
      · rcases e with _ | eb <;> rcases x with _ | xb
        · simp
        · cases xb <;> simp
        · cases eb <;> simp
        · cases eb <;> cases xb <;> simp
          split_ifs <;> simp_all
  refine ⟨heq, ?_⟩
  rw [heq]
  unfold computePortsSpec
  simp only []
  split
  · simp
  · split <;> simp

/- Claim C4. -/

/-- C4 (counterexample): the string imageName contains no interpolation
pattern (and not even the opener) but contains the substring imageName; the
source still classifies it with is_reference = false, refuting the claimed
special case. -/
theorem claim_C4_counterexample :
    listContains interpOpen "imageName".data = false ∧
    listContains "imageName".data "imageName".data = true ∧
    extract_and_parse_resource_name "imageName" = .ok ⟨"imageName", none, false⟩ := by
  refine ⟨by decide, by decide, by decide⟩

/-- C4 (amended): the reference flag of classification equals exactly the
presence of the two-character interpolation opener in the string; a string
containing imageName but no opener is therefore classified with
is_reference = false, the special case does not exist in this code. -/
theorem claim_C4_reference_flag (s : String) :
    ∃ r : Resource, extract_and_parse_resource_name s = .ok r ∧
      r.is_reference = listContains interpOpen s.data := by
  unfold extract_and_parse_resource_name
  cases h : findCaptures s.data with
  | none => exact ⟨_, rfl, rfl⟩
  | some g => obtain ⟨g1, g2⟩ := g; exact ⟨_, rfl, rfl⟩

/- Claim C9. -/

/-- C9 (counterexample): the string of a dollar, an opening brace and abc
contains no interpolation pattern (the regex finds no captures) and no
imageName, yet classification returns is_reference = true, not false as the
claim states for such strings. -/
theorem claim_C9_counterexample :
    findCaptures "$\x7babc".data = none ∧
    listContains "imageName".data "$\x7babc".data = false ∧
    extract_and_parse_resource_name "$\x7babc" = .ok ⟨"$\x7babc", none, true⟩ := by
  refine ⟨by decide, by decide, by decide⟩

/-- C9 (amended): classification never fails, maps the concrete reference
expression of the claim to name resource with is_reference = true, and maps
every string without the interpolation OPENER (not merely without a full
interpolation pattern) and without imageName to itself with
is_reference = false. -/
theorem claim_C9_classification :
    (∀ s : String, listContains interpOpen s.data = false →
        listContains "imageName".data s.data = false →
        extract_and_parse_resource_name s = .ok ⟨s, none, false⟩) ∧
    extract_and_parse_resource_name "$\x7bresource.property\x7d" =
      .ok ⟨"resource", some "property", true⟩ ∧
    (∀ s : String, ∃ r, extract_and_parse_resource_name s = .ok r) := by
  refine ⟨fun s h _ => extract_literal_of_not_open s h, by decide, fun s => ?_⟩
  unfold extract_and_parse_resource_name
  cases h : findCaptures s.data with
  | none => exact ⟨_, rfl⟩
  | some g => obtain ⟨g1, g2⟩ := g; exact ⟨_, rfl⟩

/-- C9 (witness): the amended theorem applied at the concrete literal
node-12, discharging both containment hypotheses. -/
theorem claim_C9_classification_witness :
    listContains interpOpen "node-12".data = false ∧
    listContains "imageName".data "node-12".data = false ∧
    extract_and_parse_resource_name "node-12" = .ok ⟨"node-12", none, false⟩ :=
  ⟨by decide, by decide,
    claim_C9_classification.1 "node-12" (by decide) (by decide)⟩

/- Claim C5. -/

/-- C5 (counterexample): a classified reference with is_reference = false
whose name equals a catalog entry's referenceName does NOT resolve to the
literal name: the catalog hit wins and a build context is returned, so the
catalog IS consulted. -/
theorem claim_C5_counterexample :
    check_and_match_reference [⟨"x", ⟨"$\x7bpulumi.cwd\x7d/node-app"⟩, some "myImage"⟩]
        ⟨"myImage", none, false⟩ =
      .ok (some ⟨none, some "./node-app", true⟩) ∧
    check_and_match_reference [⟨"x", ⟨"$\x7bpulumi.cwd\x7d/node-app"⟩, some "myImage"⟩]
        ⟨"myImage", none, false⟩ ≠
      .ok (some ⟨some "myImage", none, false⟩) := by
  refine ⟨by decide, by decide⟩

/-- C5 (amended): a classified non-reference resolves immediately to the
literal name provided no catalog entry's referenceName equals its name and
every entry carries a referenceName (the catalog is searched first: a hit
takes precedence and an entry without referenceName makes the search
panic). -/
theorem claim_C5_literal_resolution (images : List ContainerImageBluePrint) (resource : Resource)
    (href : resource.is_reference = false)
    (hcat : ∀ img ∈ images, img.referenceName ≠ none ∧ img.referenceName ≠ some resource.name) :
    check_and_match_reference images resource = .ok (some ⟨some resource.name, none, false⟩) := by
  unfold check_and_match_reference
  simp only [findImage_eq_ok_none resource.name images hcat]
  simp [href]

/-- C5 (witness): the amended theorem applied to the literal node-12 against
a one-entry catalog with a different referenceName. -/
theorem claim_C5_literal_resolution_witness :
    check_and_match_reference [⟨"x", ⟨"$\x7bpulumi.cwd\x7d/node-app"⟩, some "myImage"⟩]
        ⟨"node-12", none, false⟩ = .ok (some ⟨some "node-12", none, false⟩) :=
  claim_C5_literal_resolution _ _ (by decide) (by decide)

/- Claim C3. -/

/-- C3 (counterexample): with a catalog whose single entry lacks a
referenceName, resolving a reference that matches no entry does not return
nothing: the search unwrap panics, and the panic aborts the whole run, so
the other containers are NOT processed. -/
theorem claim_C3_counterexample :
    check_and_match_reference [⟨"x", ⟨"ctx"⟩, none⟩] ⟨"nomatch", some "name", true⟩ = .panicked ∧
    build_configuration
        [⟨⟨some [⟨"$\x7bnomatch.name\x7d", "bad"⟩, ⟨"node-12", "good"⟩]⟩, ⟨none, none⟩⟩]
        [⟨"x", ⟨"ctx"⟩, none⟩] = .panicked := by
  refine ⟨by decide, by decide⟩

/-- C3 (amended): when every catalog entry carries a referenceName and none
equals the classified reference's name, the container resolves to nothing
and contributes zero output records, and deleting it from its application
leaves the whole run's output unchanged (all other containers are still
processed). -/
theorem claim_C3_unresolved_reference_dropped
    (images : List ContainerImageBluePrint) (c : ContainerBluePrint) (res : Resource)
    (dapr : Option DaprBluePrint) (ingress : Option IngressBluePrint)
    (apps1 apps2 : List ContainerAppBluePrint) (pre post : List ContainerBluePrint)
    (hres : extract_and_parse_resource_name c.image = .ok res)
    (href : res.is_reference = true)
    (hcat : ∀ img ∈ images, img.referenceName ≠ none ∧ img.referenceName ≠ some res.name) :
    parse_app_configuration images ⟨c, dapr, ingress⟩ = .ok none ∧
    build_configuration (apps1 ++ ⟨⟨some (pre ++ c :: post)⟩, ⟨dapr, ingress⟩⟩ :: apps2) images =
      build_configuration (apps1 ++ ⟨⟨some (pre ++ post)⟩, ⟨dapr, ingress⟩⟩ :: apps2) images := by
  have hchk : check_and_match_reference images res = .ok none := by
    unfold check_and_match_reference
    simp only [findImage_eq_ok_none res.name images hcat]
    simp [href]
  have himg : build_image_for_serialization images c = .ok none := by
    unfold build_image_for_serialization
    simp only [hres]
    exact hchk
  have hparse : parse_app_configuration images ⟨c, dapr, ingress⟩ = .ok none := by
    unfold parse_app_configuration
    simp only [himg]
  refine ⟨hparse, ?_⟩
  have hpc : ∀ cs2, parse_containers images dapr ingress (c :: cs2) =
      parse_containers images dapr ingress cs2 := by
    intro cs2
    rw [parse_containers, hparse]
    cases h2 : parse_containers images dapr ingress cs2 <;> simp
  have hmid : parse_containers images dapr ingress (pre ++ c :: post) =
      parse_containers images dapr ingress (pre ++ post) := by
    induction pre with
    | nil => simpa using hpc post
    | cons q qs ih =>
      rw [List.cons_append, List.cons_append, parse_containers, parse_containers, ih]
  induction apps1 with
  | nil =>
    simp only [List.nil_append]
    rw [build_configuration, build_configuration]
    simp only [hmid]
  | cons a as ih =>
    simp only [List.cons_append]
    rw [build_configuration, build_configuration, ih]

/-- C3 (witness): the amended theorem at a concrete run: the unresolved
container bad is dropped and removing it leaves the output of the remaining
container good unchanged. -/
theorem claim_C3_unresolved_reference_dropped_witness :
    parse_app_configuration [⟨"x", ⟨"$\x7bpulumi.cwd\x7d/node-app"⟩, some "myImage"⟩]
        ⟨⟨"$\x7bnomatch.name\x7d", "bad"⟩, none, none⟩ = .ok none ∧
    build_configuration
        [⟨⟨some [⟨"$\x7bnomatch.name\x7d", "bad"⟩, ⟨"node-12", "good"⟩]⟩, ⟨none, none⟩⟩]
        [⟨"x", ⟨"$\x7bpulumi.cwd\x7d/node-app"⟩, some "myImage"⟩] =
      build_configuration [⟨⟨some [⟨"node-12", "good"⟩]⟩, ⟨none, none⟩⟩]
        [⟨"x", ⟨"$\x7bpulumi.cwd\x7d/node-app"⟩, some "myImage"⟩] :=
  claim_C3_unresolved_reference_dropped
    [⟨"x", ⟨"$\x7bpulumi.cwd\x7d/node-app"⟩, some "myImage"⟩]
    ⟨"$\x7bnomatch.name\x7d", "bad"⟩ ⟨"nomatch", some "name", true⟩ none none
    [] [] [] [⟨"node-12", "good"⟩] (by decide) (by decide) (by decide)

/- Claim C6. -/

/-- C6 (counterexample): a mesh configuration present with enabled absent is
an error in the assembler: the image resolves, yet parse_app_configuration
panics on the enabled unwrap instead of returning a normal result. -/
theorem claim_C6_counterexample :
    build_image_for_serialization [] ⟨"node-12", "a"⟩ = .ok (some ⟨some "node-12", none, false⟩) ∧
    parse_app_configuration [] ⟨⟨"node-12", "a"⟩, some ⟨none, none, none⟩, none⟩ = .panicked := by
  refine ⟨by decide, by decide⟩

/-- C6 (amended): absence of the whole mesh configuration, of the ingress
configuration or of its fields, and of appPort or appId is never an error:
the assembler returns a normal result when the mesh is absent or its enabled
flag is present, and the port resolver treats an absent enabled flag as mesh
disabled and an absent external flag as no ingress; but a present mesh whose
enabled flag is absent makes the assembler panic. -/
theorem claim_C6_absence_defaulted (images : List ContainerImageBluePrint)
    (container : ContainerBluePrint) (ingress : Option IngressBluePrint)
    (r : Option DockerImageForPulumi)
    (himg : build_image_for_serialization images container = .ok r) :
    parse_app_configuration images ⟨container, none, ingress⟩ ≠ .panicked ∧
    (∀ d : DaprBluePrint, d.enabled.isSome = true →
        parse_app_configuration images ⟨container, some d, ingress⟩ ≠ .panicked) ∧
    (∀ (c : ContainerBluePrint) (p : Option Nat) (a : Option String),
        (build_ports_mapping_for_serialization ⟨c, some ⟨none, p, a⟩, ingress⟩).2 =
          (build_ports_mapping_for_serialization ⟨c, none, ingress⟩).2) ∧
    (∀ (c : ContainerBluePrint) (d : Option DaprBluePrint) (tp : Option Nat),
        (build_ports_mapping_for_serialization ⟨c, d, some ⟨none, tp⟩⟩).2 = none) := by
  have key : ∀ (dc : Option DaprBluePrint),
      (match dc with
       | some v => v.enabled
       | none => some false).isSome = true →
      parse_app_configuration images ⟨container, dc, ingress⟩ ≠ .panicked := by
    intro dc hdc
    unfold parse_app_configuration
    simp only [himg]
    cases r with
    | none => simp
    | some img =>
      cases he : (match dc with
                  | some v => v.enabled
                  | none => some false) with
      | none => rw [he] at hdc; cases hdc
      | some b =>
        simp only [he]
        by_cases hic : img.is_context = true
        · obtain ⟨p, hp⟩ := build_image_ok_some_path images container img himg hic
          cases b <;> simp [hic, hp]
        · have hic' : img.is_context = false := by
            cases hv : img.is_context
            · rfl
            · exact absurd hv hic
          cases b <;> simp [hic']
  refine ⟨key none (by simp), fun d hd => key (some d) (by simpa using hd), ?_, ?_⟩
  · intro c p a
    unfold build_ports_mapping_for_serialization
    simp
  · intro c d tp
    unfold build_ports_mapping_for_serialization
    simp

/-- C6 (witness): the amended theorem applied at a resolvable literal image
with no mesh configuration at all. -/
theorem claim_C6_absence_defaulted_witness :
    build_image_for_serialization [] ⟨"node-12", "w"⟩ = .ok (some ⟨some "node-12", none, false⟩) ∧
    parse_app_configuration [] ⟨⟨"node-12", "w"⟩, none, none⟩ ≠ .panicked :=
  ⟨by decide,
    (claim_C6_absence_defaulted [] ⟨"node-12", "w"⟩ none (some ⟨some "node-12", none, false⟩)
      (by decide)).1⟩

/- Lemmas on the build-context matcher and the placeholder replacement. -/

/-- Both groups produced by the anchored build-context matcher are
nonempty. -/
lemma ctxMatchAt_groups_ne_nil (l g1 g3 : List Char) (h : ctxMatchAt l = some (g1, g3)) :
    g1 ≠ [] ∧ g3 ≠ [] := by
  cases l with
  | nil => simp [ctxMatchAt] at h
  | cons c1 t =>
    cases t with
    | nil => simp [ctxMatchAt] at h
    | cons c2 rest =>
      rw [ctxMatchAt] at h
      split at h
      · obtain ⟨p, _, hfp⟩ := findSome?_witness _ _ _ h
        split at hfp
        · split at hfp
          · split at hfp
            · split at hfp
              · rename_i hne
                injection hfp with hpair
                injection hpair with h1 h3
                constructor
                · rw [← h1]; simp
                · rw [← h3]
                  intro hnil
                  rw [hnil] at hne
                  simp at hne
              · cases hfp
            · cases hfp
          · cases hfp
        · cases hfp
      · cases h

/-- Both groups produced by the unanchored build-context captures are
nonempty. -/
lemma findCtxCaptures_groups_ne_nil (l g1 g3 : List Char)
    (h : findCtxCaptures l = some (g1, g3)) : g1 ≠ [] ∧ g3 ≠ [] := by
  induction l with
  | nil => simp [findCtxCaptures] at h
  | cons c cs ih =>
    rw [findCtxCaptures] at h
    cases hm : ctxMatchAt (c :: cs) with
    | some r =>
      simp only [hm] at h
      injection h with h'
      rw [h'] at hm
      exact ctxMatchAt_groups_ne_nil _ _ _ hm
    | none =>
      simp only [hm] at h
      exact ih h

/-- The fuel-driven replacement leaves a list without any occurrence of the
placeholder unchanged. -/
lemma replaceCwdFuel_id_of_not_contains (n : Nat) (l : List Char)
    (h : listContains cwdPat l = false) : replaceCwdFuel n l = l := by
  induction n generalizing l with
  | zero => rfl
  | succ n ih =>
    cases l with
    | nil => rfl
    | cons c cs =>
      rw [listContains, Bool.or_eq_false_iff] at h
      rw [replaceCwdFuel]
      simp only [h.1, Bool.false_eq_true, if_false]
      rw [ih cs h.2]

/-- The replacement leaves a string without the placeholder unchanged. -/
lemma replaceCwd_id_of_not_contains (l : List Char) (h : listContains cwdPat l = false) :
    replaceCwd l = l :=
  replaceCwdFuel_id_of_not_contains _ _ h

/- Claim C7. -/

/-- C7 (counterexample): a matched catalog entry whose build-context
expression has no dollar-brace-slash shape makes image resolution panic (the
unwrap on the failed regex captures), refuting that resolution never fails
regardless of the shape of the expression. -/
theorem claim_C7_counterexample :
    check_and_match_reference [⟨"x", ⟨"node-app"⟩, some "myImage"⟩] ⟨"myImage", none, true⟩ =
      .panicked := by
  decide

/-- C7 (amended): for every catalog entry matched by the search, image
resolution succeeds whenever the entry's build-context expression matches
the dollar-brace-slash shape, substituting the fixed placeholder only inside
the leading group; any other interpolation syntax inside that group passes
through substitution unchanged.  An expression without that shape panics
instead (see the counterexample). -/
theorem claim_C7_matched_entry (images : List ContainerImageBluePrint) (resource : Resource)
    (entry : ContainerImageBluePrint) (g1 g3 : List Char)
    (hfind : findImage resource.name images = .ok (some entry))
    (hctx : findCtxCaptures entry.build.context.data = some (g1, g3)) :
    check_and_match_reference images resource =
      .ok (some ⟨none, some (String.mk (replaceCwd g1 ++ '/' :: g3)), true⟩) ∧
    (listContains cwdPat g1 = false →
      check_and_match_reference images resource =
        .ok (some ⟨none, some (String.mk (g1 ++ '/' :: g3)), true⟩)) := by
  obtain ⟨hg1, hg3⟩ := findCtxCaptures_groups_ne_nil _ _ _ hctx
  have hmain : check_and_match_reference images resource =
      .ok (some ⟨none, some (String.mk (replaceCwd g1 ++ '/' :: g3)), true⟩) := by
    unfold check_and_match_reference
    simp only [hfind, hctx]
    have hemp : (g3.isEmpty || g1.isEmpty) = false := by
      cases g1 with
      | nil => exact absurd rfl hg1
      | cons a as =>
        cases g3 with
        | nil => exact absurd rfl hg3
        | cons b bs => rfl
    simp [hemp]
  refine ⟨hmain, fun hnc => ?_⟩
  rw [hmain, replaceCwd_id_of_not_contains g1 hnc]

/-- C7 (witness): a matched entry whose context holds a foreign
interpolation expression resolves without failure and the foreign expression
passes through unchanged. -/
theorem claim_C7_matched_entry_witness :
    check_and_match_reference [⟨"i", ⟨"$\x7bfoo.bar\x7d/app"⟩, some "m"⟩] ⟨"m", none, true⟩ =
      .ok (some ⟨none, some "$\x7bfoo.bar\x7d/app", true⟩) := by
  have h := (claim_C7_matched_entry [⟨"i", ⟨"$\x7bfoo.bar\x7d/app"⟩, some "m"⟩] ⟨"m", none, true⟩
      ⟨"i", ⟨"$\x7bfoo.bar\x7d/app"⟩, some "m"⟩ "$\x7bfoo.bar\x7d".data "app".data
      (by decide) (by decide)).2 (by decide)
  rw [h]
  decide

/- Claim C8. -/

/-- C8 (counterexample): an occurrence of the working-directory placeholder
OUTSIDE the matched leading group is not replaced: the resolved build
context still contains the placeholder, refuting that every occurrence in
the build-context expression is replaced. -/
theorem claim_C8_counterexample :
    check_and_match_reference [⟨"i", ⟨"$\x7ba\x7d/$\x7bpulumi.cwd\x7dx"⟩, some "m"⟩]
        ⟨"m", none, true⟩ = .ok (some ⟨none, some "$\x7ba\x7d/$\x7bpulumi.cwd\x7dx", true⟩) ∧
    listContains cwdPat "$\x7ba\x7d/$\x7bpulumi.cwd\x7dx".data = true := by
  refine ⟨by decide, by decide⟩

/-- C8 (amended): resolving the claim's concrete reference yields a build
context of dot-slash-node-app, and every occurrence of the placeholder
inside the matched LEADING group of the expression is replaced by a dot
(shown with two occurrences); occurrences after that group are left
unchanged (see the counterexample). -/
theorem claim_C8_cwd_substitution :
    check_and_match_reference [⟨"x", ⟨"$\x7bpulumi.cwd\x7d/node-app"⟩, some "myImage"⟩]
        ⟨"myImage", some "name", true⟩ = .ok (some ⟨none, some "./node-app", true⟩) ∧
    check_and_match_reference [⟨"i", ⟨"$\x7bpulumi.cwd\x7d/$\x7bpulumi.cwd\x7d/app"⟩, some "m"⟩]
        ⟨"m", none, true⟩ = .ok (some ⟨none, some "././app", true⟩) := by
  refine ⟨by decide, by decide⟩

/- Claim C2. -/

/-- C2 (counterexample): a container whose image resolves, under a mesh
configuration that is present but whose enabled flag is absent (a disabled
mesh in the specification's sense), yields a panic rather than the single
record the claim promises for a disabled mesh. -/
theorem claim_C2_counterexample :
    build_image_for_serialization [] ⟨"node-12", "web"⟩ =
      .ok (some ⟨some "node-12", none, false⟩) ∧
    parse_app_configuration [] ⟨⟨"node-12", "web"⟩, some ⟨none, some 3000, some "web"⟩, none⟩ =
      .panicked := by
  refine ⟨by decide, by decide⟩

/-- C2 (amended): for every container whose image resolves, a mesh
configuration present with enabled = true yields exactly the primary record
(resolved image or build context, container name, placement dependency,
dapr-network, computed ports) immediately followed by the fixed sidecar
record (daprd edge image, name suffixed with underscore dapr, dependsOn the
container, networkMode service colon name, no ports, no networks, fixed
command embedding the app id, the mesh app port defaulting to zero, and
placement colon 50006); a mesh configuration present with enabled = false,
or absent altogether, yields exactly one record with all other optional
fields empty; a mesh present with enabled absent panics instead (see the
counterexample). -/
theorem claim_C2_record_shapes (images : List ContainerImageBluePrint)
    (container : ContainerBluePrint) (ingress : Option IngressBluePrint)
    (img : DockerImageForPulumi)
    (himg : build_image_for_serialization images container = .ok (some img)) :
    (∀ d : DaprBluePrint, d.enabled = some true →
        parse_app_configuration images ⟨container, some d, ingress⟩ =
          .ok (some
            [⟨img.name, if img.is_context then img.path.map BuildContext.mk else none,
              container.name, some ["placement"], some ["dapr-network"], none, none,
              (build_ports_mapping_for_serialization ⟨container, some d, ingress⟩).2, none⟩,
             ⟨some "daprio/daprd:edge", none, container.name ++ "_dapr", some [container.name],
              none, some ("service:" ++ container.name), none, none,
              some ["./daprd", "-app-id", container.name, "-app-port",
                    toString (d.appPort.getD 0), "-placement-host-address",
                    "placement:50006", "air"]⟩])) ∧
    (∀ d : DaprBluePrint, d.enabled = some false →
        parse_app_configuration images ⟨container, some d, ingress⟩ =
          .ok (some
            [⟨img.name, if img.is_context then img.path.map BuildContext.mk else none,
              container.name, none, none, none, none,
              (build_ports_mapping_for_serialization ⟨container, some d, ingress⟩).2, none⟩])) ∧
    parse_app_configuration images ⟨container, none, ingress⟩ =
      .ok (some
        [⟨img.name, if img.is_context then img.path.map BuildContext.mk else none,
          container.name, none, none, none, none,
          (build_ports_mapping_for_serialization ⟨container, none, ingress⟩).2, none⟩]) := by
  have hbld : (if img.is_context then
                 match img.path with
                 | some p => some (some (BuildContext.mk p))
                 | none => none
               else some none) =
      some (if img.is_context then img.path.map BuildContext.mk else none) := by
    by_cases hic : img.is_context = true
    · obtain ⟨p, hp⟩ := build_image_ok_some_path images container img himg hic
      simp [hic, hp]
    · have hic' : img.is_context = false := by
        cases hv : img.is_context
        · rfl
        · exact absurd hv hic
      simp [hic']
  refine ⟨?_, ?_, ?_⟩
  · intro d hd
    unfold parse_app_configuration
    simp only [himg, hd, hbld]
    have hport : (build_ports_mapping_for_serialization ⟨container, some d, ingress⟩).1 =
        d.appPort := rfl
    simp [hport]
  · intro d hd
    unfold parse_app_configuration
    simp only [himg, hd, hbld]
    simp
  · unfold parse_app_configuration
    simp only [himg, hbld]
    simp

/-- C2 (witness): the amended theorem at the concrete mesh-enabled scenario
of the repository's own test, with the image resolved to a build context. -/
theorem claim_C2_record_shapes_witness :
    parse_app_configuration [⟨"x", ⟨"$\x7bpulumi.cwd\x7d/node-app"⟩, some "myImage"⟩]
        ⟨⟨"$\x7bmyImage.name\x7d", "myapp"⟩, some ⟨some true, some 3000, some "myapp"⟩,
         some ⟨some true, some 80⟩⟩ =
      .ok (some
        [⟨none, some ⟨"./node-app"⟩, "myapp", some ["placement"], some ["dapr-network"], none,
          none, some ["80:3000"], none⟩,
         ⟨some "daprio/daprd:edge", none, "myapp_dapr", some ["myapp"], none,
          some "service:myapp", none, none,
          some ["./daprd", "-app-id", "myapp", "-app-port", "3000",
                "-placement-host-address", "placement:50006", "air"]⟩]) := by
  have h := (claim_C2_record_shapes [⟨"x", ⟨"$\x7bpulumi.cwd\x7d/node-app"⟩, some "myImage"⟩]
      ⟨"$\x7bmyImage.name\x7d", "myapp"⟩ (some ⟨some true, some 80⟩)
      ⟨none, some "./node-app", true⟩ (by decide)).1 ⟨some true, some 3000, some "myapp"⟩ rfl
  rw [h]
  decide

/- Claim C10. -/

/-- C10: the walker preserves input iteration order: the output of the
concatenation of two application lists is the concatenation of their
outputs, the per-application output of the concatenation of two container
lists is the concatenation of their outputs, and every emitted group is
either a single primary record or a primary record immediately followed by
its sidecar (named with the underscore-dapr suffix). -/
theorem claim_C10_order (images : List ContainerImageBluePrint) :
    (∀ (apps1 apps2 : List ContainerAppBluePrint) (l1 l2 : List ContainerAppConfiguration),
        build_configuration apps1 images = .ok l1 →
        build_configuration apps2 images = .ok l2 →
        build_configuration (apps1 ++ apps2) images = .ok (l1 ++ l2)) ∧
    (∀ (dapr : Option DaprBluePrint) (ingress : Option IngressBluePrint)
        (cs1 cs2 : List ContainerBluePrint) (l1 l2 : List ContainerAppConfiguration),
        parse_containers images dapr ingress cs1 = .ok l1 →
        parse_containers images dapr ingress cs2 = .ok l2 →
        parse_containers images dapr ingress (cs1 ++ cs2) = .ok (l1 ++ l2)) ∧
    (∀ (cfg : AppConfiguration) (l : List ContainerAppConfiguration),
        parse_app_configuration images cfg = .ok (some l) →
        (∃ p, l = [p] ∧ p.name = cfg.container.name) ∨
        (∃ p s, l = [p, s] ∧ p.name = cfg.container.name ∧
          s.name = cfg.container.name ++ "_dapr")) := by
  have hpc : ∀ (dapr : Option DaprBluePrint) (ingress : Option IngressBluePrint)
      (cs1 cs2 : List ContainerBluePrint) (l1 l2 : List ContainerAppConfiguration),
      parse_containers images dapr ingress cs1 = .ok l1 →
      parse_containers images dapr ingress cs2 = .ok l2 →
      parse_containers images dapr ingress (cs1 ++ cs2) = .ok (l1 ++ l2) := by
    intro dapr ingress cs1
    induction cs1 with
    | nil =>
      intro cs2 l1 l2 h1 h2
      rw [parse_containers] at h1
      injection h1 with h1'
      rw [← h1']
      simpa using h2
    | cons c cs ih =>
      intro cs2 l1 l2 h1 h2
      simp only [List.cons_append]
      rw [parse_containers] at h1 ⊢
      cases hp : parse_app_configuration images ⟨c, dapr, ingress⟩ with
      | panicked => simp only [hp] at h1; cases h1
      | ok r =>
        simp only [hp] at h1 ⊢
        cases hr : parse_containers images dapr ingress cs with
        | panicked => simp only [hr] at h1; cases h1
        | ok rs =>
          simp only [hr] at h1
          injection h1 with h1'
          have hih := ih cs2 rs l2 hr h2
          simp only [hih]
          rw [← h1', List.append_assoc]
  have hbc : ∀ (apps1 apps2 : List ContainerAppBluePrint)
      (l1 l2 : List ContainerAppConfiguration),
      build_configuration apps1 images = .ok l1 →
      build_configuration apps2 images = .ok l2 →
      build_configuration (apps1 ++ apps2) images = .ok (l1 ++ l2) := by
    intro apps1
    induction apps1 with
    | nil =>
      intro apps2 l1 l2 h1 h2
      rw [build_configuration] at h1
      injection h1 with h1'
      rw [← h1']
      simpa using h2
    | cons a as ih =>
      intro apps2 l1 l2 h1 h2
      simp only [List.cons_append]
      rw [build_configuration] at h1 ⊢
      cases hc : a.template.containers with
      | none => simp only [hc] at h1; cases h1
      | some cs =>
        simp only [hc] at h1 ⊢
        cases hp : parse_containers images a.configuration.dapr a.configuration.ingress cs with
        | panicked => simp only [hp] at h1; cases h1
        | ok recs =>
          simp only [hp] at h1 ⊢
          cases hrest : build_configuration as images with
          | panicked => simp only [hrest] at h1; cases h1
          | ok restRecs =>
            simp only [hrest] at h1
            injection h1 with h1'
            have hih := ih apps2 restRecs l2 hrest h2
            simp only [hih]
            rw [← h1', List.append_assoc]
  refine ⟨hbc, hpc, ?_⟩
  intro cfg l h
  unfold parse_app_configuration at h
  cases hb : build_image_for_serialization images cfg.container with
  | panicked => simp only [hb] at h; cases h
  | ok r =>
    simp only [hb] at h
    cases r with
    | none =>
      injection h with h'
      cases h'
    | some img =>
      cases he : (match cfg.dapr_configuration with
                  | some v => v.enabled
                  | none => some false) with
      | none => simp only [he] at h; cases h
      | some b =>
        simp only [he] at h
        cases hbl : (if img.is_context then
                       match img.path with
                       | some p => some (some (BuildContext.mk p))
                       | none => none
                     else some none) with
        | none => simp only [hbl] at h; cases h
        | some bld =>
          simp only [hbl] at h
          cases b with
          | true =>
            rw [if_pos rfl] at h
            injection h with h'
            injection h' with h''
            exact Or.inr ⟨_, _, h''.symm, rfl, rfl⟩
          | false =>
            rw [if_neg Bool.false_ne_true] at h
            injection h with h'
            injection h' with h''
            exact Or.inl ⟨_, h''.symm, rfl⟩

/-- C10 (witness): order preservation applied at a concrete two-application
run with literal images. -/
theorem claim_C10_order_witness :
    build_configuration
        ([⟨⟨some [⟨"node-12", "a"⟩]⟩, ⟨none, none⟩⟩] ++
         [⟨⟨some [⟨"node-12", "b"⟩]⟩, ⟨none, none⟩⟩]) [] =
      .ok ([⟨some "node-12", none, "a", none, none, none, none, none, none⟩] ++
           [⟨some "node-12", none, "b", none, none, none, none, none, none⟩]) :=
  (claim_C10_order []).1 _ _ _ _ (by decide) (by decide)
